import Mathlib

/-!
Verification development for the paper-explorer-backend ingestion scripts.
Python strings are modelled as lists of characters; Python sets of strings
as finite sets of such lists; machine-independent arithmetic as Nat and Int.
-/

/-- Python strings are modelled as lists of Unicode characters. -/
abbrev PyStr := List Char

/-- The whitespace characters recognised by the Python str.split and
str.strip methods on the inputs this repository handles (ASCII whitespace). -/
def isPySpace (c : Char) : Bool :=
  c = ' ' || c = '\t' || c = '\n' || c = '\x0d' || c = '\x0b' || c = '\x0c'

/-- ASCII lowercasing of one character, modelling str.lower on the ASCII
subset the repository feeds it. -/
def pyLowerChar (c : Char) : Char :=
  if 'A' ≤ c && c ≤ 'Z' then Char.ofNat (c.toNat + 32) else c

/-- str.lower, character by character. -/
def pyLower (s : PyStr) : PyStr := s.map pyLowerChar

/-- str.strip with no argument: drop leading and trailing whitespace. -/
def pyStrip (s : PyStr) : PyStr :=
  ((s.dropWhile isPySpace).reverse.dropWhile isPySpace).reverse

/-- Helper for pySplit: accumulates the current word in reverse. -/
def pySplitAux : PyStr → PyStr → List PyStr
  | [], acc => if acc = [] then [] else [acc.reverse]
  | c :: cs, acc =>
    if isPySpace c then
      if acc = [] then pySplitAux cs [] else acc.reverse :: pySplitAux cs []
    else pySplitAux cs (c :: acc)

/-- str.split with no argument: split on whitespace runs, no empty parts. -/
def pySplit (s : PyStr) : List PyStr := pySplitAux s []

/-- A one-space join of a list of words, as in a join on the single-space
separator string. -/
def joinSpace : List PyStr → PyStr
  | [] => []
  | [w] => w
  | w :: ws => w ++ ' ' :: joinSpace ws

example : pySplit "  foo   bar ".data = ["foo".data, "bar".data] := by decide
example : joinSpace (pySplit (pyLower "Foo  Bar Study".data)) = "foo bar study".data := by
  decide
example : pyStrip "  a b ".data = "a b".data := by decide

/-! UTF-8 encoding of a character sequence, byte values as Nat below 256. -/

/-- UTF-8 bytes of a single code point. -/
def utf8Bytes (c : Char) : List Nat :=
  let n := c.toNat
  if n < 128 then [n]
  else if n < 2048 then [192 + n / 64, 128 + n % 64]
  else if n < 65536 then [224 + n / 4096, 128 + n / 64 % 64, 128 + n % 64]
  else [240 + n / 262144, 128 + n / 4096 % 64, 128 + n / 64 % 64, 128 + n % 64]

/-- UTF-8 encoding of a whole string. -/
def utf8Encode (s : PyStr) : List Nat := s.flatMap utf8Bytes

/-! The MD5 digest (RFC 1321), executable over byte lists, word arithmetic
done in Nat modulo two to the thirty-two. -/

/-- Reduce to a 32-bit word. -/
def w32 (x : Nat) : Nat := x % 4294967296

/-- Left rotation of a 32-bit word. -/
def rotl32 (x n : Nat) : Nat := w32 (x * 2 ^ n + x / 2 ^ (32 - n))

/-- 32-bit complement. -/
def not32 (x : Nat) : Nat := 4294967295 - x

/-- The 64 MD5 sine-derived constants. -/
def md5K : List Nat :=
  [3614090360, 3905402710, 606105819, 3250441966, 4118548399, 1200080426,
   2821735955, 4249261313, 1770035416, 2336552879, 4294925233, 2304563134,
   1804603682, 4254626195, 2792965006, 1236535329, 4129170786, 3225465664,
   643717713, 3921069994, 3593408605, 38016083, 3634488961, 3889429448,
   568446438, 3275163606, 4107603335, 1163531501, 2850285829, 4243563512,
   1735328473, 2368359562, 4294588738, 2272392833, 1839030562, 4259657740,
   2763975236, 1272893353, 4139469664, 3200236656, 681279174, 3936430074,
   3572445317, 76029189, 3654602809, 3873151461, 530742520, 3299628645,
   4096336452, 1126891415, 2878612391, 4237533241, 1700485571, 2399980690,
   4293915773, 2240044497, 1873313359, 4264355552, 2734768916, 1309151649,
   4149444226, 3174756917, 718787259, 3951481745]

/-- The 64 MD5 per-round rotation amounts. -/
def md5S : List Nat :=
  [7, 12, 17, 22, 7, 12, 17, 22, 7, 12, 17, 22, 7, 12, 17, 22,
   5, 9, 14, 20, 5, 9, 14, 20, 5, 9, 14, 20, 5, 9, 14, 20,
   4, 11, 16, 23, 4, 11, 16, 23, 4, 11, 16, 23, 4, 11, 16, 23,
   6, 10, 15, 21, 6, 10, 15, 21, 6, 10, 15, 21, 6, 10, 15, 21]

/-- The MD5 round mixing function for round i. -/
def md5F (i b c d : Nat) : Nat :=
  if i < 16 then Nat.lor (Nat.land b c) (Nat.land (not32 b) d)
  else if i < 32 then Nat.lor (Nat.land d b) (Nat.land (not32 d) c)
  else if i < 48 then Nat.xor b (Nat.xor c d)
  else Nat.xor c (Nat.lor b (not32 d))

/-- The MD5 message-word index for round i. -/
def md5G (i : Nat) : Nat :=
  if i < 16 then i
  else if i < 32 then (5 * i + 1) % 16
  else if i < 48 then (3 * i + 5) % 16
  else (7 * i) % 16

/-- One MD5 round on the running state, reading block words from M. -/
def md5Round (M : List Nat) (st : Nat × Nat × Nat × Nat) (i : Nat) :
    Nat × Nat × Nat × Nat :=
  let (a, b, c, d) := st
  let f := w32 (md5F i b c d + a + md5K.getD i 0 + M.getD (md5G i) 0)
  (d, w32 (b + rotl32 f (md5S.getD i 0)), b, c)

/-- One MD5 block transformation (64 rounds plus the feed-forward add). -/
def md5Block (st : Nat × Nat × Nat × Nat) (M : List Nat) :
    Nat × Nat × Nat × Nat :=
  let (a0, b0, c0, d0) := st
  let (a, b, c, d) := (List.range 64).foldl (md5Round M) st
  (w32 (a0 + a), w32 (b0 + b), w32 (c0 + c), w32 (d0 + d))

/-- Little-endian byte expansion of a number, k bytes wide. -/
def leBytes : Nat → Nat → List Nat
  | 0, _ => []
  | k + 1, n => n % 256 :: leBytes k (n / 256)

/-- Group a byte list into little-endian 32-bit words. -/
def bytesToWords : List Nat → List Nat
  | b0 :: b1 :: b2 :: b3 :: rest =>
    (b0 + 256 * b1 + 65536 * b2 + 16777216 * b3) :: bytesToWords rest
  | _ => []

/-- Group a word list into blocks of sixteen words. -/
def toBlocks : List Nat → List (List Nat)
  | w0 :: w1 :: w2 :: w3 :: w4 :: w5 :: w6 :: w7 :: w8 :: w9 :: w10 :: w11 ::
      w12 :: w13 :: w14 :: w15 :: rest =>
    [w0, w1, w2, w3, w4, w5, w6, w7, w8, w9, w10, w11, w12, w13, w14, w15] ::
      toBlocks rest
  | _ => []

/-- MD5 padding: a 0x80 byte, zeros to 56 modulo 64, then the bit length. -/
def md5Pad (msg : List Nat) : List Nat :=
  let len := msg.length
  let zeros := (120 - (len + 1) % 64) % 64
  msg ++ 128 :: List.replicate zeros 0 ++ leBytes 8 ((8 * len) % 2 ^ 64)

/-- The 16-byte MD5 digest of a byte list. -/
def md5Bytes (msg : List Nat) : List Nat :=
  let blocks := toBlocks (bytesToWords (md5Pad msg))
  let (a, b, c, d) :=
    blocks.foldl md5Block (1732584193, 4023233417, 2562383102, 271733878)
  leBytes 4 a ++ leBytes 4 b ++ leBytes 4 c ++ leBytes 4 d

/-- Lowercase hexadecimal digit. -/
def hexDigitChar (n : Nat) : Char := "0123456789abcdef".data.getD n '0'

/-- Two-digit lowercase hexadecimal form of one byte. -/
def byteToHex (b : Nat) : List Char := [hexDigitChar (b / 16), hexDigitChar (b % 16)]

/-- The lowercase hexadecimal MD5 digest of a byte list, as hexdigest gives it. -/
def md5Hex (msg : List Nat) : PyStr :=
  (md5Bytes msg).foldr (fun b acc => byteToHex b ++ acc) []

example : md5Hex (utf8Encode "".data) = "d41d8cd98f00b204e9800998ecf8427e".data := by
  decide
example : md5Hex (utf8Encode "abc".data) = "900150983cd24fb0d6963f7d28e17f72".data := by
  decide

/-- generate_paper_id from src/scripts/run.py: normalize the title by
splitting on whitespace and rejoining with single spaces after lowercasing,
append an underscore and the year, and return the hexadecimal MD5 digest of
the UTF-8 bytes of that string. -/
def generate_paper_id (title year : PyStr) : PyStr :=
  let normalized_title := joinSpace (pySplit (pyLower title))
  let id_string := normalized_title ++ '_' :: year
  md5Hex (utf8Encode id_string)

example : generate_paper_id "Foo Bar Study".data "2020".data
    = "a3c1e2ed738f80c8d0ed7599c2ce1cf6".data := by decide

/-! clean_unicode_text from src/scripts/run.py: a chain of single-character
str.replace calls plus an empty-input guard. -/

/-- str.replace with a single-character pattern: substitute every occurrence
of pat by rep. -/
def replaceChar (pat : Char) (rep : PyStr) (s : PyStr) : PyStr :=
  s.flatMap fun c => if c = pat then rep else [c]

/-- clean_unicode_text from src/scripts/run.py: return the empty string on
falsy input, otherwise replace the six dash variants, the non-breaking
space and the ellipsis code point by their plain-ASCII equivalents, in the
same order as the source. -/
def clean_unicode_text (text : PyStr) : PyStr :=
  if text = [] then []
  else
    let t1 := replaceChar '‐' "-".data text
    let t2 := replaceChar '‑' "-".data t1
    let t3 := replaceChar '‒' "-".data t2
    let t4 := replaceChar '–' "-".data t3
    let t5 := replaceChar '—' "-".data t4
    let t6 := replaceChar '―' "-".data t5
    let t7 := replaceChar ' ' " ".data t6
    replaceChar '…' "...".data t7

example : clean_unicode_text "a–b…".data = "a-b...".data := by decide

/-- The combined per-character effect of the replacement chain. -/
def cleanChar (c : Char) : List Char :=
  if c = '‐' then ['-']
  else if c = '‑' then ['-']
  else if c = '‒' then ['-']
  else if c = '–' then ['-']
  else if c = '—' then ['-']
  else if c = '―' then ['-']
  else if c = ' ' then [' ']
  else if c = '…' then ['.', '.', '.']
  else [c]

theorem replaceChar_flatMap (pat : Char) (rep : PyStr) (f : Char → PyStr)
    (s : PyStr) :
    replaceChar pat rep (s.flatMap f)
      = s.flatMap fun c => replaceChar pat rep (f c) := by
  induction s with
  | nil => rfl
  | cons c cs ih =>
    simp only [List.flatMap_cons, replaceChar, List.flatMap_append] at *
    rw [ih]

theorem cleanChar_on_plain (c : Char) (h1 : c ≠ '‐') (h2 : c ≠ '‑')
    (h3 : c ≠ '‒') (h4 : c ≠ '–') (h5 : c ≠ '—') (h6 : c ≠ '―')
    (h7 : c ≠ ' ') (h8 : c ≠ '…') : cleanChar c = [c] := by
  simp [cleanChar, h1, h2, h3, h4, h5, h6, h7, h8]

theorem clean_unicode_text_eq_flatMap (s : PyStr) (h : s ≠ []) :
    clean_unicode_text s = s.flatMap cleanChar := by
  have hrep : ∀ c : Char,
      replaceChar '…' "...".data
        (replaceChar ' ' " ".data
          (replaceChar '―' "-".data
            (replaceChar '—' "-".data
              (replaceChar '–' "-".data
                (replaceChar '‒' "-".data
                  (replaceChar '‑' "-".data
                    (replaceChar '‐' "-".data [c])))))))
        = cleanChar c := by
    intro c
    by_cases h1 : c = '‐'
    · subst h1; decide
    by_cases h2 : c = '‑'
    · subst h2; decide
    by_cases h3 : c = '‒'
    · subst h3; decide
    by_cases h4 : c = '–'
    · subst h4; decide
    by_cases h5 : c = '—'
    · subst h5; decide
    by_cases h6 : c = '―'
    · subst h6; decide
    by_cases h7 : c = ' '
    · subst h7; decide
    by_cases h8 : c = '…'
    · subst h8; decide
    rw [cleanChar_on_plain c h1 h2 h3 h4 h5 h6 h7 h8]
    simp [replaceChar, h1, h2, h3, h4, h5, h6, h7, h8]
  have key : ∀ t : PyStr, t ≠ [] → clean_unicode_text t = t.flatMap cleanChar := by
    intro t ht
    show (if t = [] then [] else _) = _
    rw [if_neg ht]
    show replaceChar '…' "...".data
        (replaceChar ' ' " ".data
          (replaceChar '―' "-".data
            (replaceChar '—' "-".data
              (replaceChar '–' "-".data
                (replaceChar '‒' "-".data
                  (replaceChar '‑' "-".data
                    (replaceChar '‐' "-".data t)))))))
        = t.flatMap cleanChar
    conv_lhs => rw [← List.flatMap_singleton' t]
    simp only [replaceChar_flatMap]
    exact List.flatMap_congr fun c _ => hrep c
  exact key s h

theorem cleanChar_fixed (c : Char) :
    (cleanChar c).flatMap cleanChar = cleanChar c := by
  by_cases h1 : c = '‐'
  · subst h1; decide
  by_cases h2 : c = '‑'
  · subst h2; decide
  by_cases h3 : c = '‒'
  · subst h3; decide
  by_cases h4 : c = '–'
  · subst h4; decide
  by_cases h5 : c = '—'
  · subst h5; decide
  by_cases h6 : c = '―'
  · subst h6; decide
  by_cases h7 : c = ' '
  · subst h7; decide
  by_cases h8 : c = '…'
  · subst h8; decide
  rw [cleanChar_on_plain c h1 h2 h3 h4 h5 h6 h7 h8, List.flatMap_singleton,
    cleanChar_on_plain c h1 h2 h3 h4 h5 h6 h7 h8]

theorem flatMap_cleanChar_idem (s : PyStr) :
    (s.flatMap cleanChar).flatMap cleanChar = s.flatMap cleanChar := by
  induction s with
  | nil => rfl
  | cons c cs ih =>
    simp only [List.flatMap_cons, List.flatMap_append, ih, cleanChar_fixed]

/-- C8: the Unicode-cleanup normalizer is idempotent: applying
clean_unicode_text twice yields the same result as applying it once, for
every input string. -/
theorem c8_clean_unicode_text_idempotent (s : PyStr) :
    clean_unicode_text (clean_unicode_text s) = clean_unicode_text s := by
  by_cases h : s = []
  · subst h; rfl
  · rw [clean_unicode_text_eq_flatMap s h]
    by_cases h2 : s.flatMap cleanChar = []
    · rw [h2]; rfl
    · rw [clean_unicode_text_eq_flatMap _ h2, flatMap_cleanChar_idem]

/-- The title normalization inside generate_paper_id: lowercase, then split
on whitespace runs and rejoin with single spaces. -/
def normalized_title (title : PyStr) : PyStr := joinSpace (pySplit (pyLower title))

/-- C1: the paper id is the hexadecimal MD5 digest of the lowercased,
whitespace-collapsed title joined to the year by an underscore; it is a
pure function of that normalized string, so titles agreeing after
normalization (case or internal-whitespace variants) get the same id, and
the record with title Foo Bar Study and year 2020 gets the digest of the
string foo bar study_2020, which is a3c1e2ed738f80c8d0ed7599c2ce1cf6. -/
theorem c1_generate_paper_id (t1 t2 y : PyStr)
    (h : normalized_title t1 = normalized_title t2) :
    generate_paper_id t1 y = generate_paper_id t2 y
    ∧ (∀ t : PyStr, ∀ yr : PyStr, generate_paper_id t yr
        = md5Hex (utf8Encode (normalized_title t ++ '_' :: yr)))
    ∧ (∀ yr : PyStr, generate_paper_id "Foo  Bar".data yr
        = generate_paper_id "foo bar".data yr)
    ∧ generate_paper_id "Foo Bar Study".data "2020".data
        = md5Hex (utf8Encode "foo bar study_2020".data)
    ∧ md5Hex (utf8Encode "foo bar study_2020".data)
        = "a3c1e2ed738f80c8d0ed7599c2ce1cf6".data := by
  refine ⟨?_, fun t yr => rfl, ?_, ?_, by decide⟩
  · show md5Hex (utf8Encode (normalized_title t1 ++ '_' :: y)) = _
    rw [h]; rfl
  · intro yr
    show md5Hex (utf8Encode (normalized_title "Foo  Bar".data ++ '_' :: yr)) = _
    have h2 : normalized_title "Foo  Bar".data = normalized_title "foo bar".data := by
      decide
    rw [h2]; rfl
  · decide

/-- Witness for C1 at a concrete case and whitespace variant pair. -/
theorem c1_generate_paper_id_witness :
    normalized_title "The  CAT sat".data = normalized_title "the cat  sat".data
    ∧ generate_paper_id "The  CAT sat".data "2021".data
        = generate_paper_id "the cat  sat".data "2021".data := by
  have h : normalized_title "The  CAT sat".data = normalized_title "the cat  sat".data := by
    decide
  exact ⟨h, (c1_generate_paper_id "The  CAT sat".data "the cat  sat".data
    "2021".data h).1⟩

/-! contains_non_english_chars and the early filtering loop of
process_eml_files from src/scripts/run.py. -/

/-- The disallowed Unicode blocks tested by contains_non_english_chars:
CJK and its extensions, Hiragana, Katakana, Hangul, Cyrillic with its
supplements, Arabic, Hebrew and Thai, by code point ranges. -/
def disallowedCodePoint (n : Nat) : Bool :=
  (0x4E00 ≤ n && n ≤ 0x9FFF) ||
  (0x3400 ≤ n && n ≤ 0x4DBF) ||
  (0x20000 ≤ n && n ≤ 0x2A6DF) ||
  (0x2A700 ≤ n && n ≤ 0x2B73F) ||
  (0x2B740 ≤ n && n ≤ 0x2B81F) ||
  (0x2B820 ≤ n && n ≤ 0x2CEAF) ||
  (0xF900 ≤ n && n ≤ 0xFAFF) ||
  (0x3040 ≤ n && n ≤ 0x309F) ||
  (0x30A0 ≤ n && n ≤ 0x30FF) ||
  (0xAC00 ≤ n && n ≤ 0xD7AF) ||
  (0x0400 ≤ n && n ≤ 0x04FF) ||
  (0x0500 ≤ n && n ≤ 0x052F) ||
  (0x2DE0 ≤ n && n ≤ 0x2DFF) ||
  (0xA640 ≤ n && n ≤ 0xA69F) ||
  (0x0600 ≤ n && n ≤ 0x06FF) ||
  (0x0590 ≤ n && n ≤ 0x05FF) ||
  (0x0E00 ≤ n && n ≤ 0x0E7F)

/-- contains_non_english_chars from src/scripts/run.py: true when some
character of the text falls in a disallowed block; empty text gives false. -/
def contains_non_english_chars (text : PyStr) : Bool :=
  text.any fun c => disallowedCodePoint c.toNat

/-- Whether pat is a leading segment of s (helper for the substring test). -/
def startsWithL : PyStr → PyStr → Bool
  | [], _ => true
  | _ :: _, [] => false
  | p :: ps, c :: cs => p == c && startsWithL ps cs

/-- The Python membership test of one string inside another: pat occurs as
a contiguous segment of s. -/
def hasSub : PyStr → PyStr → Bool
  | pat, [] => pat == []
  | pat, c :: cs => startsWithL pat (c :: cs) || hasSub pat cs

example : hasSub "od mo".data "flood model".data = true := by decide
example : hasSub "cat".data "flood model".data = false := by decide

/-- The first avoid keyword found in the lowercased title, in iteration
order of the keyword collection. -/
def find_avoid_keyword (avoidKeywords : List PyStr) (titleLower : PyStr) :
    Option PyStr :=
  avoidKeywords.find? fun kw => hasSub kw titleLower

/-- Outcome of one pass of the early filtering loop for one title. -/
inductive EarlyFilterResult where
  | nonEnglish : EarlyFilterResult
  | keywordHit : PyStr → EarlyFilterResult
  | alreadyReviewed : EarlyFilterResult
  | alreadyRegistered : EarlyFilterResult
  | keep : EarlyFilterResult
deriving DecidableEq

/-- The early filtering decision for one title, in source order: the
non-English script check, then the avoid-keyword check on the lowercased
title, then the reviewed-log check and the known-id check on the id built
with the current year. -/
def early_filter_step (avoidKeywords : List PyStr)
    (reviewedIds registeredIds : Finset PyStr) (currentYear : PyStr)
    (title : PyStr) : EarlyFilterResult :=
  if contains_non_english_chars title then .nonEnglish
  else
    match find_avoid_keyword avoidKeywords (pyLower title) with
    | some kw => .keywordHit kw
    | none =>
      let paper_id := generate_paper_id title currentYear
      if paper_id ∈ reviewedIds then .alreadyReviewed
      else if paper_id ∈ registeredIds then .alreadyRegistered
      else .keep

/-- The mutable state of the early filtering loop: the surviving titles and
the two rejection counters the claim mentions. -/
structure FilterCounters where
  filtered : List PyStr
  nonEnglishCount : Nat
  keywordCount : Nat
deriving DecidableEq

/-- One iteration of the early filtering loop over the loop state. -/
def filter_titles_step (avoidKeywords : List PyStr)
    (reviewedIds registeredIds : Finset PyStr) (currentYear : PyStr)
    (st : FilterCounters) (title : PyStr) : FilterCounters :=
  match early_filter_step avoidKeywords reviewedIds registeredIds currentYear title with
  | .nonEnglish => { st with nonEnglishCount := st.nonEnglishCount + 1 }
  | .keywordHit _ => { st with keywordCount := st.keywordCount + 1 }
  | .alreadyReviewed => st
  | .alreadyRegistered => st
  | .keep => { st with filtered := st.filtered ++ [title] }

/-- The whole early filtering loop over a batch of unique titles. -/
def filter_titles (avoidKeywords : List PyStr)
    (reviewedIds registeredIds : Finset PyStr) (currentYear : PyStr)
    (titles : List PyStr) : FilterCounters :=
  titles.foldl
    (filter_titles_step avoidKeywords reviewedIds registeredIds currentYear)
    ⟨[], 0, 0⟩

/-- C6: a title holding both a disallowed-script character and an avoid
keyword is rejected at the script check: the step returns the non-English
outcome, the non-English counter is incremented, the keyword counter is
untouched and the title is not kept. -/
theorem c6_filter_order (avoidKeywords : List PyStr)
    (reviewedIds registeredIds : Finset PyStr) (currentYear title : PyStr)
    (st : FilterCounters)
    (hscript : contains_non_english_chars title = true)
    (hkw : ∃ kw ∈ avoidKeywords, hasSub kw (pyLower title) = true) :
    early_filter_step avoidKeywords reviewedIds registeredIds currentYear title
      = EarlyFilterResult.nonEnglish
    ∧ (filter_titles_step avoidKeywords reviewedIds registeredIds currentYear
        st title).nonEnglishCount = st.nonEnglishCount + 1
    ∧ (filter_titles_step avoidKeywords reviewedIds registeredIds currentYear
        st title).keywordCount = st.keywordCount
    ∧ (filter_titles_step avoidKeywords reviewedIds registeredIds currentYear
        st title).filtered = st.filtered := by
  have h1 : early_filter_step avoidKeywords reviewedIds registeredIds
      currentYear title = EarlyFilterResult.nonEnglish := by
    unfold early_filter_step
    rw [hscript]
    rfl
  refine ⟨h1, ?_, ?_, ?_⟩ <;>
    · unfold filter_titles_step
      rw [h1]

/-- Witness for C6: a title with a CJK character and the avoid keyword
flood, against a singleton keyword list. -/
theorem c6_filter_order_witness :
    contains_non_english_chars "深 flood model".data = true
    ∧ (∃ kw ∈ ["flood".data], hasSub kw (pyLower "深 flood model".data) = true)
    ∧ early_filter_step ["flood".data] ∅ ∅ "2026".data "深 flood model".data
        = EarlyFilterResult.nonEnglish
    ∧ (filter_titles_step ["flood".data] ∅ ∅ "2026".data ⟨[], 0, 0⟩
        "深 flood model".data).nonEnglishCount = 0 + 1
    ∧ (filter_titles_step ["flood".data] ∅ ∅ "2026".data ⟨[], 0, 0⟩
        "深 flood model".data).keywordCount = 0 := by
  have h1 : contains_non_english_chars "深 flood model".data = true := by decide
  have h2 : ∃ kw ∈ ["flood".data], hasSub kw (pyLower "深 flood model".data) = true := by
    decide
  have h := c6_filter_order ["flood".data] ∅ ∅ "2026".data "深 flood model".data
    ⟨[], 0, 0⟩ h1 h2
  exact ⟨h1, h2, h.1, h.2.1, h.2.2.1⟩

/-! Dates. The reviewed-paper log stores dates in the four-digit
year-month-day format; loading parses them with strptime and compares
against a cutoff 365 days before the load instant. Instants are modelled
as seconds on the proleptic Gregorian timeline whose day one is January
first of year one, matching the toordinal scale of the datetime module. -/

/-- Gregorian leap-year rule. -/
def isLeapYear (y : Nat) : Bool := (y % 4 == 0 && y % 100 != 0) || y % 400 == 0

/-- Length of a month. -/
def daysInMonth (y m : Nat) : Nat :=
  if m = 2 then (if isLeapYear y then 29 else 28)
  else if m = 4 || m = 6 || m = 9 || m = 11 then 30
  else 31

/-- Days in the given year strictly before the first of the given month. -/
def daysBeforeMonth (y m : Nat) : Nat :=
  ((List.range (m - 1)).map fun i => daysInMonth y (i + 1)).sum

/-- The proleptic Gregorian ordinal of a date: day one is January first of
year one, as the datetime module counts. -/
def dateOrdinal (y m d : Nat) : Nat :=
  365 * (y - 1) + (y - 1) / 4 - (y - 1) / 100 + (y - 1) / 400
    + daysBeforeMonth y m + d

example : dateOrdinal 1970 1 1 = 719163 := by decide
example : dateOrdinal 2026 10 12 = 739901 := by decide

/-- Split on a separator character, keeping empty parts, as str.split with
an explicit separator does. -/
def splitSepAux (sep : Char) : PyStr → PyStr → List PyStr
  | [], acc => [acc.reverse]
  | c :: cs, acc =>
    if c = sep then acc.reverse :: splitSepAux sep cs []
    else splitSepAux sep cs (c :: acc)

/-- str.split on one separator character. -/
def splitSep (sep : Char) (s : PyStr) : List PyStr := splitSepAux sep s []

example : splitSep '-' "2026-10-12".data = ["2026".data, "10".data, "12".data] := by
  decide

/-- Nonempty and all ASCII decimal digits. -/
def isDigitStr (s : PyStr) : Bool := !s.isEmpty && s.all Char.isDigit

/-- Decimal value of a digit string. -/
def digitsToNat (s : PyStr) : Nat := s.foldl (fun n c => 10 * n + (c.toNat - 48)) 0

/-- strptime with the year-month-day format: a four-digit year, a one- or
two-digit month and day, dashes between, nothing else; the fields must
form a real calendar date. Returns the seconds of that midnight on the
ordinal timeline, or none on any mismatch, as the ValueError branch of the
source skips the row. -/
def parseDate (s : PyStr) : Option Int :=
  match splitSep '-' s with
  | [ys, ms, ds] =>
    if isDigitStr ys && ys.length == 4 && isDigitStr ms && ms.length ≤ 2
        && isDigitStr ds && ds.length ≤ 2 then
      let y := digitsToNat ys
      let m := digitsToNat ms
      let d := digitsToNat ds
      if 1 ≤ y && 1 ≤ m && m ≤ 12 && 1 ≤ d && d ≤ daysInMonth y m then
        some ((dateOrdinal y m d : Int) * 86400)
      else none
    else none
  | _ => none

example : parseDate "2026-10-12".data = some (739901 * 86400) := by decide
example : parseDate "2026-02-30".data = none := by decide
example : parseDate "unknown".data = none := by decide

/-- One data row of the reviewed-paper log. -/
structure ReviewedRow where
  paper_id : PyStr
  date_added : PyStr
deriving DecidableEq

/-- load_reviewed_papers from src/scripts/run.py, over the parsed rows of
the log file: keep the stripped id of every row whose stripped date parses
and is no older than 365 days before the load instant; rows with
unparseable dates are skipped. -/
def load_reviewed_papers (nowSec : Int) (rows : List ReviewedRow) : Finset PyStr :=
  (rows.filterMap fun r =>
    match parseDate (pyStrip r.date_added) with
    | some t => if nowSec - 365 * 86400 ≤ t then some (pyStrip r.paper_id) else none
    | none => none).toFinset

/-- C7: a paper id is in the loaded active set exactly when some log row
carries it with a parseable date no older than 365 days before the load
instant; concretely, at a load instant of midnight 2026-10-12, a row dated
400 days earlier (2025-09-07) is dropped, one dated 10 days earlier
(2026-10-02) is kept, and an unparseable date is skipped. -/
theorem c7_load_reviewed_papers (nowSec : Int) (rows : List ReviewedRow)
    (pid : PyStr) :
    (pid ∈ load_reviewed_papers nowSec rows ↔
      ∃ r ∈ rows, ∃ t : Int, parseDate (pyStrip r.date_added) = some t
        ∧ nowSec - 365 * 86400 ≤ t ∧ pyStrip r.paper_id = pid)
    ∧ load_reviewed_papers ((739901 : Int) * 86400)
        [⟨"aaa".data, "2025-09-07".data⟩, ⟨"bbb".data, "2026-10-02".data⟩,
         ⟨"ccc".data, "unknown".data⟩]
      = {"bbb".data} := by
  constructor
  · rw [load_reviewed_papers, List.mem_toFinset, List.mem_filterMap]
    constructor
    · rintro ⟨r, hr, hf⟩
      refine ⟨r, hr, ?_⟩
      rcases hp : parseDate (pyStrip r.date_added) with _ | t
      · rw [hp] at hf
        exact absurd hf (by simp)
      · rw [hp] at hf
        dsimp only at hf
        by_cases hc : nowSec - 365 * 86400 ≤ t
        · rw [if_pos hc] at hf
          exact ⟨t, rfl, hc, Option.some.inj hf⟩
        · rw [if_neg hc] at hf
          exact absurd hf (by simp)
    · rintro ⟨r, hr, t, hp, hc, hpid⟩
      refine ⟨r, hr, ?_⟩
      rw [hp]
      dsimp only
      rw [if_pos hc, hpid]
  · decide

/-- Decimal digit character. -/
def digitChar (n : Nat) : Char := Char.ofNat (48 + n % 10)

/-- Zero-padded fixed-width decimal rendering, as the strftime fields
use. -/
def padNumAux : Nat → Nat → PyStr → PyStr
  | 0, _, acc => acc
  | k + 1, n, acc => padNumAux k (n / 10) (digitChar (n % 10) :: acc)

/-- Zero-padded decimal of the given width. -/
def padNum (width n : Nat) : PyStr := padNumAux width n []

example : padNum 4 2026 = "2026".data := by decide
example : padNum 2 7 = "07".data := by decide

/-- Civil date of an ordinal day count (inverse of dateOrdinal), by the
standard era decomposition over 400-year cycles. -/
def civilFromOrdinal (n : Int) : Int × Int × Int :=
  let z := n + 305
  let era := Int.fdiv z 146097
  let doe := z - 146097 * era
  let yoe := (doe - doe / 1460 + doe / 36524 - doe / 146097) / 365
  let y := yoe + era * 400
  let doy := doe - (365 * yoe + yoe / 4 - yoe / 100)
  let mp := (5 * doy + 2) / 153
  let d := doy - (153 * mp + 2) / 5 + 1
  let m := mp + (if mp < 10 then 3 else -9)
  (y + (if m ≤ 2 then 1 else 0), m, d)

example : civilFromOrdinal 739901 = (2026, 10, 12) := by decide

/-- strftime with the year-month-day format at a given instant. -/
def fmtDate (t : Int) : PyStr :=
  let c := civilFromOrdinal (Int.fdiv t 86400)
  padNum 4 c.1.toNat ++ '-' :: padNum 2 c.2.1.toNat ++ '-' :: padNum 2 c.2.2.toNat

example : fmtDate ((739901 : Int) * 86400 + 3600) = "2026-10-12".data := by decide
example : fmtDate ((dateOrdinal 2025 3 1 : Int) * 86400) = "2025-03-01".data := by
  decide

/-- The still-valid entries read back from the log file inside
save_reviewed_papers: rows whose stripped date parses and is within the
365-day window, with both fields stripped. -/
def validReviewedEntries (nowSec : Int) (fileRows : List ReviewedRow) :
    List ReviewedRow :=
  fileRows.filterMap fun r =>
    match parseDate (pyStrip r.date_added) with
    | some t =>
      if nowSec - 365 * 86400 ≤ t then
        some ⟨pyStrip r.paper_id, pyStrip r.date_added⟩
      else none
    | none => none

/-- The entries appended for the session: ids of the session set that are
absent from the valid existing ids, each dated with the current date. -/
def freshReviewedEntries (reviewed_papers : List PyStr)
    (fileRows : List ReviewedRow) (nowSec : Int) : List ReviewedRow :=
  (reviewed_papers.filter fun pid =>
    decide (pid ∉ (validReviewedEntries nowSec fileRows).map ReviewedRow.paper_id)).map
    fun pid => ⟨pid, fmtDate nowSec⟩

/-- Order on log rows by paper id, the sort key of the final write. -/
def entryLe (e1 e2 : ReviewedRow) : Prop := e1.paper_id ≤ e2.paper_id

instance : DecidableRel entryLe :=
  fun a b => inferInstanceAs (Decidable (a.paper_id ≤ b.paper_id))

/-- save_reviewed_papers from src/scripts/run.py: reread the file keeping
only entries still within the 365-day window, append the session ids not
already present with the current date, and write everything back sorted by
paper id. The session set is taken in its iteration order. -/
def save_reviewed_papers (reviewed_papers : List PyStr)
    (fileRows : List ReviewedRow) (nowSec : Int) : List ReviewedRow :=
  List.insertionSort entryLe
    (validReviewedEntries nowSec fileRows
      ++ freshReviewedEntries reviewed_papers fileRows nowSec)

/-- C10: rewriting the log never refreshes the date of an id already
present with an in-window date: the original row survives with its
original date, every output entry carrying that id comes from the file
(so a session re-review adds nothing for it), and only session ids absent
from the valid file entries are written with the current date. -/
theorem c10_save_reviewed_papers (reviewed_papers : List PyStr)
    (fileRows : List ReviewedRow) (nowSec : Int) (r : ReviewedRow) (t : Int)
    (hr : r ∈ fileRows)
    (hp : parseDate (pyStrip r.date_added) = some t)
    (hw : nowSec - 365 * 86400 ≤ t) :
    (⟨pyStrip r.paper_id, pyStrip r.date_added⟩ : ReviewedRow)
      ∈ save_reviewed_papers reviewed_papers fileRows nowSec
    ∧ (∀ e ∈ save_reviewed_papers reviewed_papers fileRows nowSec,
        e.paper_id = pyStrip r.paper_id →
        e ∈ validReviewedEntries nowSec fileRows)
    ∧ (∀ pid ∈ reviewed_papers,
        pid ∉ (validReviewedEntries nowSec fileRows).map ReviewedRow.paper_id →
        (⟨pid, fmtDate nowSec⟩ : ReviewedRow)
          ∈ save_reviewed_papers reviewed_papers fileRows nowSec) := by
  have hvalid : (⟨pyStrip r.paper_id, pyStrip r.date_added⟩ : ReviewedRow)
      ∈ validReviewedEntries nowSec fileRows := by
    rw [validReviewedEntries, List.mem_filterMap]
    refine ⟨r, hr, ?_⟩
    rw [hp]
    dsimp only
    rw [if_pos hw]
  have hmemiff : ∀ e : ReviewedRow,
      e ∈ save_reviewed_papers reviewed_papers fileRows nowSec ↔
      e ∈ validReviewedEntries nowSec fileRows
        ∨ e ∈ freshReviewedEntries reviewed_papers fileRows nowSec := by
    intro e
    rw [save_reviewed_papers,
      (List.perm_insertionSort entryLe _).mem_iff, List.mem_append]
  refine ⟨(hmemiff _).mpr (Or.inl hvalid), ?_, ?_⟩
  · intro e he heq
    rcases (hmemiff e).mp he with h | h
    · exact h
    · exfalso
      rw [freshReviewedEntries, List.mem_map] at h
      rcases h with ⟨pid, hmemf, hpe⟩
      rw [List.mem_filter] at hmemf
      have hnot : pid ∉ (validReviewedEntries nowSec fileRows).map
          ReviewedRow.paper_id := of_decide_eq_true hmemf.2
      apply hnot
      have hpid : pid = pyStrip r.paper_id := by
        have hcong := congrArg ReviewedRow.paper_id hpe
        simpa using hcong.trans heq
      rw [List.mem_map]
      exact ⟨⟨pyStrip r.paper_id, pyStrip r.date_added⟩, hvalid, by rw [hpid]⟩
  · intro pid hmem hnot
    refine (hmemiff _).mpr (Or.inr ?_)
    rw [freshReviewedEntries, List.mem_map]
    exact ⟨pid, List.mem_filter.mpr ⟨hmem, decide_eq_true hnot⟩, rfl⟩

/-- Witness for C10: a file row ten days old whose id is re-reviewed in the
session, and a new session id absent from the file. -/
theorem c10_save_reviewed_papers_witness :
    (⟨"aaa".data, "2026-10-02".data⟩ : ReviewedRow) ∈ [(⟨"aaa".data, "2026-10-02".data⟩ : ReviewedRow)]
    ∧ parseDate (pyStrip "2026-10-02".data) = some ((739891 : Int) * 86400)
    ∧ (739901 : Int) * 86400 - 365 * 86400 ≤ (739891 : Int) * 86400
    ∧ ((⟨pyStrip "aaa".data, pyStrip "2026-10-02".data⟩ : ReviewedRow)
        ∈ save_reviewed_papers ["aaa".data, "zzz".data]
          [⟨"aaa".data, "2026-10-02".data⟩] ((739901 : Int) * 86400)
      ∧ (∀ e ∈ save_reviewed_papers ["aaa".data, "zzz".data]
            [⟨"aaa".data, "2026-10-02".data⟩] ((739901 : Int) * 86400),
          e.paper_id = pyStrip "aaa".data →
          e ∈ validReviewedEntries ((739901 : Int) * 86400)
            [⟨"aaa".data, "2026-10-02".data⟩])
      ∧ (∀ pid ∈ ["aaa".data, "zzz".data],
          pid ∉ (validReviewedEntries ((739901 : Int) * 86400)
              [⟨"aaa".data, "2026-10-02".data⟩]).map ReviewedRow.paper_id →
          (⟨pid, fmtDate ((739901 : Int) * 86400)⟩ : ReviewedRow)
            ∈ save_reviewed_papers ["aaa".data, "zzz".data]
              [⟨"aaa".data, "2026-10-02".data⟩] ((739901 : Int) * 86400))) :=
  ⟨by decide, by decide, by decide,
    c10_save_reviewed_papers ["aaa".data, "zzz".data]
      [⟨"aaa".data, "2026-10-02".data⟩] ((739901 : Int) * 86400)
      ⟨"aaa".data, "2026-10-02".data⟩ ((739891 : Int) * 86400)
      (by decide) (by decide) (by decide)⟩

/-! The Registry Store tables: save_set_to_csv, load_csv_to_set,
save_journal_mapping and load_journal_mapping from src/scripts/run.py. The
file is modelled at row granularity: a header naming the columns and one
record per row, the comma encoding being the business of the csv module. -/

/-- A single-column delimited table. -/
structure CsvSetFile where
  header : List PyStr
  rows : List PyStr
deriving DecidableEq

/-- save_set_to_csv: write the header and the members of the set sorted. -/
def save_set_to_csv (data : Finset PyStr) (column_name : PyStr) : CsvSetFile :=
  ⟨[column_name], data.sort (· ≤ ·)⟩

/-- load_csv_to_set: when the header carries the requested column, collect
the stripped lowercased field of every row into a set. -/
def load_csv_to_set (file : CsvSetFile) (column_name : PyStr) : Finset PyStr :=
  if column_name ∈ file.header then
    (file.rows.map fun v => pyLower (pyStrip v)).toFinset
  else ∅

/-- A two-column delimited table for the journal mapping. -/
structure CsvMapFile where
  header : List PyStr
  rows : List (PyStr × PyStr)
deriving DecidableEq

/-- Lexicographic order on key-value rows, the order of sorted items. -/
def pairLe (a b : PyStr × PyStr) : Prop :=
  a.1 < b.1 ∨ (a.1 = b.1 ∧ a.2 ≤ b.2)

instance : DecidableRel pairLe :=
  fun a b => inferInstanceAs (Decidable (a.1 < b.1 ∨ (a.1 = b.1 ∧ a.2 ≤ b.2)))

/-- save_journal_mapping: write the two headers and the mapping items
sorted. -/
def save_journal_mapping (mapping : List (PyStr × PyStr)) : CsvMapFile :=
  ⟨["lowercase_name".data, "correct_name".data], List.insertionSort pairLe mapping⟩

/-- Assignment into an insertion-ordered dictionary: an existing key keeps
its position and takes the new value, a new key is appended. -/
def dictInsert (d : List (PyStr × PyStr)) (k v : PyStr) : List (PyStr × PyStr) :=
  if k ∈ d.map Prod.fst then d.map fun p => if p.1 = k then (k, v) else p
  else d ++ [(k, v)]

/-- load_journal_mapping: when both headers are present, fold the rows into
a dictionary keyed by the stripped lowercased name, valued by the stripped
correct name. -/
def load_journal_mapping (file : CsvMapFile) : List (PyStr × PyStr) :=
  if "lowercase_name".data ∈ file.header ∧ "correct_name".data ∈ file.header then
    file.rows.foldl (fun d kv => dictInsert d (pyLower (pyStrip kv.1)) (pyStrip kv.2)) []
  else []

theorem foldl_dictInsert_eq (rows : List (PyStr × PyStr)) :
    ∀ d : List (PyStr × PyStr),
    (∀ kv ∈ rows, pyLower (pyStrip kv.1) = kv.1 ∧ pyStrip kv.2 = kv.2) →
    (rows.map Prod.fst).Nodup →
    (∀ kv ∈ rows, kv.1 ∉ d.map Prod.fst) →
    rows.foldl (fun d kv => dictInsert d (pyLower (pyStrip kv.1)) (pyStrip kv.2)) d
      = d ++ rows := by
  induction rows with
  | nil => intro d _ _ _; simp
  | cons kv rest ih =>
    intro d hnorm hnd hdisj
    have hk := (hnorm kv (List.mem_cons_self kv rest)).1
    have hv := (hnorm kv (List.mem_cons_self kv rest)).2
    have hnd' : kv.1 ∉ rest.map Prod.fst ∧ (rest.map Prod.fst).Nodup := by
      rw [List.map_cons, List.nodup_cons] at hnd
      exact hnd
    have hins : dictInsert d (pyLower (pyStrip kv.1)) (pyStrip kv.2)
        = d ++ [kv] := by
      rw [hk, hv, dictInsert, if_neg (hdisj kv (List.mem_cons_self kv rest)),
        Prod.mk.eta]
    have hdisj' : ∀ p ∈ rest, p.1 ∉ (d ++ [kv]).map Prod.fst := by
      intro p hp
      rw [List.map_append, List.mem_append]
      rintro (hin | hin)
      · exact hdisj p (List.mem_cons_of_mem kv hp) hin
      · simp only [List.map_cons, List.map_nil, List.mem_singleton] at hin
        exact hnd'.1 (hin ▸ List.mem_map_of_mem Prod.fst hp)
    simp only [List.foldl_cons]
    rw [hins, ih (d ++ [kv]) (fun p hp => hnorm p (List.mem_cons_of_mem kv hp))
      hnd'.2 hdisj']
    simp

/-- C3: saving a nonempty set of valid values (already stripped, lowercase
and nonempty) and loading the file back yields the same set; likewise,
saving the journal mapping (keys already stripped lowercase, values
stripped, keys without repeats) and loading it back yields an equal
mapping, as a permutation of its items. -/
theorem c3_registry_round_trip (S : Finset PyStr) (column_name : PyStr)
    (hne : S.Nonempty)
    (hvalid : ∀ v ∈ S, pyStrip v = v ∧ pyLower v = v ∧ v ≠ [])
    (m : List (PyStr × PyStr))
    (hkeys : (m.map Prod.fst).Nodup)
    (hmv : ∀ kv ∈ m, pyLower (pyStrip kv.1) = kv.1 ∧ pyStrip kv.2 = kv.2) :
    load_csv_to_set (save_set_to_csv S column_name) column_name = S
    ∧ (load_journal_mapping (save_journal_mapping m)).Perm m := by
  constructor
  · rw [load_csv_to_set, save_set_to_csv]
    dsimp only
    rw [if_pos (List.mem_singleton.mpr rfl)]
    have hmap : ((S.sort (· ≤ ·)).map fun v => pyLower (pyStrip v))
        = S.sort (· ≤ ·) := by
      have h := List.map_congr_left
        (l := S.sort (· ≤ ·)) (f := fun v => pyLower (pyStrip v)) (g := id)
        (fun v hv => by
          have hvS := (Finset.mem_sort (α := PyStr) (· ≤ ·)).mp hv
          rcases hvalid v hvS with ⟨h1, h2, _⟩
          show pyLower (pyStrip v) = v
          rw [h1, h2])
      rw [h, List.map_id]
    rw [hmap, Finset.sort_toFinset]
  · have hperm : (List.insertionSort pairLe m).Perm m := List.perm_insertionSort _ _
    rw [load_journal_mapping, save_journal_mapping]
    dsimp only
    rw [if_pos ⟨by simp, by simp⟩]
    rw [foldl_dictInsert_eq (List.insertionSort pairLe m) []
      (fun kv hkv => hmv kv (hperm.mem_iff.mp hkv))
      ((hperm.map Prod.fst).nodup_iff.mpr hkeys)
      (fun kv _ => by simp)]
    simpa using hperm

/-- Witness for C3 at a two-element set and a two-entry mapping. -/
theorem c3_registry_round_trip_witness :
    (({"alpha".data, "beta x".data} : Finset PyStr).Nonempty
      ∧ (∀ v ∈ ({"alpha".data, "beta x".data} : Finset PyStr),
          pyStrip v = v ∧ pyLower v = v ∧ v ≠ []))
    ∧ (load_csv_to_set
        (save_set_to_csv {"alpha".data, "beta x".data} "name".data) "name".data
        = {"alpha".data, "beta x".data}
      ∧ (load_journal_mapping (save_journal_mapping
          [("wrr".data, "Water Resources Research".data), ("aj".data, "A Journal".data)])).Perm
          [("wrr".data, "Water Resources Research".data), ("aj".data, "A Journal".data)]) := by
  have h1 : ({"alpha".data, "beta x".data} : Finset PyStr).Nonempty := by decide
  have h2 : ∀ v ∈ ({"alpha".data, "beta x".data} : Finset PyStr),
      pyStrip v = v ∧ pyLower v = v ∧ v ≠ [] := by decide
  have h3 : (([("wrr".data, "Water Resources Research".data),
      ("aj".data, "A Journal".data)]).map Prod.fst).Nodup := by decide
  have h4 : ∀ kv ∈ [("wrr".data, "Water Resources Research".data),
      ("aj".data, "A Journal".data)],
      pyLower (pyStrip kv.1) = kv.1 ∧ pyStrip kv.2 = kv.2 := by decide
  exact ⟨⟨h1, h2⟩,
    c3_registry_round_trip {"alpha".data, "beta x".data} "name".data h1 h2
      [("wrr".data, "Water Resources Research".data), ("aj".data, "A Journal".data)]
      h3 h4⟩

/-! The topic migrator from src/scripts/migrate_topics.py: per-record topic
rewriting and the registry recomputation. -/

/-- The three static mappings configuring a migration. -/
structure MigrationConfig where
  topics_to_delete : Finset PyStr
  topics_to_merge : List (PyStr × PyStr)
  topics_to_rename : List (PyStr × PyStr)

/-- Dictionary lookup in a static source-target mapping. -/
def lookupMap (m : List (PyStr × PyStr)) (k : PyStr) : Option PyStr :=
  (m.find? fun p => p.1 == k).map Prod.snd

/-- A stored paper record, reduced to the fields the migrator touches. -/
structure Paper where
  id : PyStr
  topic : List PyStr
deriving DecidableEq

/-- The action label process_paper reports. -/
inductive MigrAction where
  | deleted : MigrAction
  | merged : MigrAction
  | renamed : MigrAction
  | unchanged : MigrAction
deriving DecidableEq

/-- One iteration of the topic rewriting loop: substitute a merge target,
else a rename target, else keep the tag, appending only when not already
collected; the two flags record whether a merge or rename fired. -/
def process_topic_step (cfg : MigrationConfig) (acc : List PyStr × Bool × Bool)
    (t : PyStr) : List PyStr × Bool × Bool :=
  match lookupMap cfg.topics_to_merge t with
  | some target =>
    (if target ∈ acc.1 then acc.1 else acc.1 ++ [target], true, acc.2.2)
  | none =>
    match lookupMap cfg.topics_to_rename t with
    | some target =>
      (if target ∈ acc.1 then acc.1 else acc.1 ++ [target], acc.2.1, true)
    | none => (if t ∈ acc.1 then acc.1 else acc.1 ++ [t], acc.2.1, acc.2.2)

/-- The rewritten tag list of a record. -/
def newTopicsOf (cfg : MigrationConfig) (paper : Paper) : List PyStr :=
  (paper.topic.foldl (process_topic_step cfg) ([], false, false)).1

/-- process_paper from src/scripts/migrate_topics.py: records without
topics pass unchanged; a record whose topics meet the delete set is
dropped whole; otherwise every tag is substituted through the merge then
rename mappings with duplicates collapsed. -/
def process_paper (cfg : MigrationConfig) (paper : Paper) :
    Option Paper × MigrAction :=
  if paper.topic = [] then (some paper, .unchanged)
  else if paper.topic.any fun t => decide (t ∈ cfg.topics_to_delete) then
    (none, .deleted)
  else
    let res := paper.topic.foldl (process_topic_step cfg) ([], false, false)
    (some { paper with topic := res.1 },
      if res.2.1 then .merged else if res.2.2 then .renamed else .unchanged)

/-- The migrator state the run accumulates: topics seen on surviving
records and ids of deleted records. -/
structure MigState where
  finalTopics : Finset PyStr
  deletedIds : Finset PyStr
deriving DecidableEq

/-- One iteration of the document loop: process one record, keep a
survivor and record its rewritten tags, or record a deletion. -/
def migrate_step (cfg : MigrationConfig) (acc : List Paper × MigState)
    (paper : Paper) : List Paper × MigState :=
  match process_paper cfg paper with
  | (none, _) =>
    (acc.1, { acc.2 with deletedIds := insert paper.id acc.2.deletedIds })
  | (some p, _) =>
    (acc.1 ++ [p],
      if paper.topic = [] then acc.2
      else { acc.2 with finalTopics := acc.2.finalTopics ∪ p.topic.toFinset })

/-- The whole migration pass over all stored records, in document order. -/
def migrate_papers (cfg : MigrationConfig) (papers : List Paper) :
    List Paper × MigState :=
  papers.foldl (migrate_step cfg) ([], ⟨∅, ∅⟩)

/-- Sources of the merge mapping. -/
def mergeSources (cfg : MigrationConfig) : Finset PyStr :=
  (cfg.topics_to_merge.map Prod.fst).toFinset

/-- Targets of the merge mapping. -/
def mergeTargets (cfg : MigrationConfig) : Finset PyStr :=
  (cfg.topics_to_merge.map Prod.snd).toFinset

/-- Sources of the rename mapping. -/
def renameSources (cfg : MigrationConfig) : Finset PyStr :=
  (cfg.topics_to_rename.map Prod.fst).toFinset

/-- Targets of the rename mapping. -/
def renameTargets (cfg : MigrationConfig) : Finset PyStr :=
  (cfg.topics_to_rename.map Prod.snd).toFinset

/-- update_topic_csv from src/scripts/migrate_topics.py: start from the
existing registry, subtract the delete set and the merge and rename
sources, then add the merge and rename targets and every topic recorded
from surviving papers, in that order. -/
def update_topic_csv (cfg : MigrationConfig)
    (existing_topics final_topics : Finset PyStr) : Finset PyStr :=
  ((((existing_topics \ cfg.topics_to_delete) \ mergeSources cfg)
      \ renameSources cfg)
    ∪ mergeTargets cfg ∪ renameTargets cfg) ∪ final_topics

/-- The registry recomputation as claim C4 words it: union first, then one
subtraction of all removed sets. -/
def update_topic_csv_claim (cfg : MigrationConfig)
    (existing_topics final_topics : Finset PyStr) : Finset PyStr :=
  ((existing_topics ∪ mergeTargets cfg ∪ renameTargets cfg) ∪ final_topics)
    \ (cfg.topics_to_delete ∪ mergeSources cfg ∪ renameSources cfg)

/-- All topic tags carried by a list of surviving records. -/
def observedTags (papers : List Paper) : Finset PyStr :=
  papers.foldr (fun p acc => p.topic.toFinset ∪ acc) ∅

/-- A migration configuration on which the two recomputations differ: the
merge target c is itself in the delete set. -/
def cfgC4 : MigrationConfig := ⟨{"c".data}, [("a".data, "c".data)], []⟩

example : (migrate_papers cfgC4 []).2.finalTopics = ∅ := by decide

/-- A merge configuration sending two distinct tags to one target. -/
def cfgC5 : MigrationConfig := ⟨∅, [("a".data, "c".data), ("b".data, "c".data)], []⟩

/-- C5: a record whose topics meet the delete set is dropped whole and
reported deleted, whatever the merge and rename mappings say about its
tags; and a record tagged with a and b, both merged into c, survives
tagged exactly with c. -/
theorem c5_process_paper (cfg : MigrationConfig) (paper : Paper)
    (h : ∃ t ∈ paper.topic, t ∈ cfg.topics_to_delete) :
    process_paper cfg paper = (none, MigrAction.deleted)
    ∧ process_paper cfgC5 ⟨"p1".data, ["a".data, "b".data]⟩
        = (some ⟨"p1".data, ["c".data]⟩, MigrAction.merged) := by
  constructor
  · have hne : paper.topic ≠ [] := by
      rintro he
      rcases h with ⟨t, ht, _⟩
      rw [he] at ht
      exact absurd ht (List.not_mem_nil t)
    have hany : (paper.topic.any fun t => decide (t ∈ cfg.topics_to_delete))
        = true := by
      rw [List.any_eq_true]
      rcases h with ⟨t, ht, hd⟩
      exact ⟨t, ht, decide_eq_true hd⟩
    rw [process_paper, if_neg hne, if_pos hany]
  · decide

/-- Witness for C5: the delete set and the merge mapping both mention tag
a; the record is dropped whole. -/
theorem c5_process_paper_witness :
    (∃ t ∈ ["a".data, "b".data], t ∈ ({"a".data} : Finset PyStr))
    ∧ process_paper ⟨{"a".data}, [("a".data, "c".data)], []⟩
        ⟨"px".data, ["a".data, "b".data]⟩ = (none, MigrAction.deleted) := by
  have h : ∃ t ∈ ["a".data, "b".data], t ∈ ({"a".data} : Finset PyStr) := by
    decide
  exact ⟨h, (c5_process_paper ⟨{"a".data}, [("a".data, "c".data)], []⟩
    ⟨"px".data, ["a".data, "b".data]⟩ h).1⟩

theorem migrate_step_empty (cfg : MigrationConfig) (acc : List Paper × MigState)
    (paper : Paper) (h : paper.topic = []) :
    migrate_step cfg acc paper = (acc.1 ++ [paper], acc.2) := by
  rw [migrate_step, process_paper, if_pos h]
  dsimp only
  rw [if_pos h]

theorem migrate_step_deleted (cfg : MigrationConfig) (acc : List Paper × MigState)
    (paper : Paper) (h1 : paper.topic ≠ [])
    (h2 : (paper.topic.any fun t => decide (t ∈ cfg.topics_to_delete)) = true) :
    migrate_step cfg acc paper
      = (acc.1, { acc.2 with deletedIds := insert paper.id acc.2.deletedIds }) := by
  rw [migrate_step, process_paper, if_neg h1, if_pos h2]

theorem migrate_step_survivor (cfg : MigrationConfig) (acc : List Paper × MigState)
    (paper : Paper) (h1 : paper.topic ≠ [])
    (h2 : (paper.topic.any fun t => decide (t ∈ cfg.topics_to_delete)) = false) :
    migrate_step cfg acc paper
      = (acc.1 ++ [{ paper with topic := newTopicsOf cfg paper }],
        { acc.2 with finalTopics :=
            acc.2.finalTopics ∪ (newTopicsOf cfg paper).toFinset }) := by
  have h2' : ¬ ((paper.topic.any fun t => decide (t ∈ cfg.topics_to_delete))
      = true) := by
    rw [h2]
    exact Bool.false_ne_true
  rw [migrate_step, process_paper, if_neg h1, if_neg h2']
  dsimp only
  rw [if_neg h1]
  rfl

theorem observedTags_cons (p : Paper) (papers : List Paper) :
    observedTags (p :: papers) = p.topic.toFinset ∪ observedTags papers := rfl

theorem migrate_fold_spec (cfg : MigrationConfig) (papers : List Paper) :
    ∀ s0 : List Paper, ∀ st0 : MigState,
    ∃ new : List Paper,
      (papers.foldl (migrate_step cfg) (s0, st0)).1 = s0 ++ new
      ∧ (papers.foldl (migrate_step cfg) (s0, st0)).2.finalTopics
          = st0.finalTopics ∪ observedTags new := by
  induction papers with
  | nil =>
    intro s0 st0
    exact ⟨[], by simp, by simp [observedTags]⟩
  | cons p rest ih =>
    intro s0 st0
    simp only [List.foldl_cons]
    by_cases h1 : p.topic = []
    · rw [migrate_step_empty cfg (s0, st0) p h1]
      obtain ⟨new, hs, ht⟩ := ih (s0 ++ [p]) st0
      refine ⟨p :: new, ?_, ?_⟩
      · rw [hs, List.append_assoc, List.singleton_append]
      · rw [ht, observedTags_cons, h1]
        simp
    · by_cases h2 : (p.topic.any fun t => decide (t ∈ cfg.topics_to_delete)) = true
      · rw [migrate_step_deleted cfg (s0, st0) p h1 h2]
        obtain ⟨new, hs, ht⟩ := ih s0
          { (s0, st0).2 with deletedIds := insert p.id (s0, st0).2.deletedIds }
        exact ⟨new, hs, ht⟩
      · have h2f : (p.topic.any fun t => decide (t ∈ cfg.topics_to_delete))
            = false := by
          rwa [Bool.not_eq_true] at h2
        rw [migrate_step_survivor cfg (s0, st0) p h1 h2f]
        obtain ⟨new, hs, ht⟩ := ih (s0 ++ [{ p with topic := newTopicsOf cfg p }])
          { (s0, st0).2 with finalTopics :=
              (s0, st0).2.finalTopics ∪ (newTopicsOf cfg p).toFinset }
        refine ⟨{ p with topic := newTopicsOf cfg p } :: new, ?_, ?_⟩
        · rw [hs, List.append_assoc, List.singleton_append]
        · rw [ht, observedTags_cons, Finset.union_assoc]

/-- C4 as amended: the accumulated final-topic set is exactly the tags
observed on surviving records, and the recomputed registry equals the
previous registry minus the delete set and the merge and rename sources,
then unioned with the merge targets, the rename targets and the observed
surviving tags — the subtraction happens before the additions. -/
theorem c4_update_topic_csv_amended (cfg : MigrationConfig)
    (existing : Finset PyStr) (papers : List Paper) :
    (migrate_papers cfg papers).2.finalTopics
        = observedTags (migrate_papers cfg papers).1
    ∧ update_topic_csv cfg existing (migrate_papers cfg papers).2.finalTopics
        = ((existing \ (cfg.topics_to_delete ∪ mergeSources cfg ∪ renameSources cfg))
            ∪ mergeTargets cfg ∪ renameTargets cfg)
            ∪ observedTags (migrate_papers cfg papers).1 := by
  obtain ⟨new, hs, ht⟩ := migrate_fold_spec cfg papers [] ⟨∅, ∅⟩
  have h1 : (migrate_papers cfg papers).2.finalTopics
      = observedTags (migrate_papers cfg papers).1 := by
    show (papers.foldl (migrate_step cfg) ([], ⟨∅, ∅⟩)).2.finalTopics
      = observedTags (papers.foldl (migrate_step cfg) ([], ⟨∅, ∅⟩)).1
    rw [ht, hs]
    simp
  refine ⟨h1, ?_⟩
  rw [h1]
  ext x
  simp only [update_topic_csv, Finset.mem_union, Finset.mem_sdiff]
  tauto

/-- Counterexample to C4 as stated: with previous registry empty, no
stored papers, merge mapping a to c and delete set containing c, the code
recomputation keeps c (the merge target is added back after the
subtraction) while the formula of the claim removes it. -/
theorem c4_update_topic_csv_counterexample :
    update_topic_csv cfgC4 ∅ (migrate_papers cfgC4 []).2.finalTopics
      ≠ update_topic_csv_claim cfgC4 ∅ (migrate_papers cfgC4 []).2.finalTopics := by
  decide

/-! The metadata normalizer: the draft construction of process_eml_files
with its defaults, plus format_authors_for_storage, from
src/scripts/run.py. -/

/-- A loosely typed lookup result: every key may be absent, matching the
defensive .get reads of the source. -/
structure PaperInfo where
  title : Option PyStr
  year : Option PyStr
  authors : Option (List PyStr)
  journal : Option PyStr
  citations : Option Int
  abstract : Option PyStr
  url : Option PyStr
deriving DecidableEq

/-- A structured author record. -/
structure Author where
  first_name : PyStr
  last_name : PyStr
deriving DecidableEq

/-- format_authors_for_storage from src/scripts/run.py: split each author
string on whitespace; two or more parts make the last token the last name
and the rest the first name, a single token is a bare last name, an empty
split contributes nothing. -/
def format_authors_for_storage (authors_list : List PyStr) : List Author :=
  authors_list.filterMap fun author =>
    let parts := pySplit (pyStrip author)
    match parts.reverse with
    | [] => none
    | [single] => some ⟨[], single⟩
    | last :: restRev => some ⟨joinSpace restRev.reverse, last⟩

example : format_authors_for_storage ["Ada Byron Lovelace".data, "Plato".data]
    = [⟨"Ada Byron".data, "Lovelace".data⟩, ⟨[], "Plato".data⟩] := by decide

/-- The canonical draft record shape. -/
structure PaperDraft where
  title : PyStr
  year : Option Int
  authors : List Author
  journal : PyStr
  citations : Int
  abstract : PyStr
  url : PyStr
  date_added : PyStr
deriving DecidableEq

/-- int() on a digit string. -/
def strToInt (s : PyStr) : Int := (digitsToNat s : Int)

/-- The paper_metadata dictionary built by process_eml_files after a
lookup: title and abstract go through the Unicode cleanup, the year is
coerced to an integer only when the fetched year string is all digits
(absent key reads as the empty string, which is not), and journal,
citations and url fall back to the empty string, zero and the empty
string. -/
def build_paper_metadata (paper_info : PaperInfo)
    (fallback_title today : PyStr) : PaperDraft :=
  { title := clean_unicode_text (paper_info.title.getD fallback_title)
  , year := match paper_info.year with
      | some y => if isDigitStr y then some (strToInt y) else none
      | none => none
  , authors := format_authors_for_storage (paper_info.authors.getD [])
  , journal := paper_info.journal.getD []
  , citations := paper_info.citations.getD 0
  , abstract := clean_unicode_text (paper_info.abstract.getD [])
  , url := paper_info.url.getD []
  , date_added := today }

/-- C9: the normalized draft never holds null for journal, citations or
url: an absent journal becomes the empty string, absent citations become
zero, an absent url becomes the empty string, and present values pass
through; the year field holds an integer exactly when the lookup carried
an all-digit year string, and is absent otherwise. -/
theorem c9_normalizer_defaults (paper_info : PaperInfo)
    (fallback_title today : PyStr) :
    ((paper_info.journal = none →
        (build_paper_metadata paper_info fallback_title today).journal = [])
      ∧ ∀ j : PyStr, paper_info.journal = some j →
        (build_paper_metadata paper_info fallback_title today).journal = j)
    ∧ ((paper_info.citations = none →
        (build_paper_metadata paper_info fallback_title today).citations = 0)
      ∧ ∀ n : Int, paper_info.citations = some n →
        (build_paper_metadata paper_info fallback_title today).citations = n)
    ∧ ((paper_info.url = none →
        (build_paper_metadata paper_info fallback_title today).url = [])
      ∧ ∀ u : PyStr, paper_info.url = some u →
        (build_paper_metadata paper_info fallback_title today).url = u)
    ∧ (∀ n : Int,
        (build_paper_metadata paper_info fallback_title today).year = some n ↔
        ∃ y : PyStr, paper_info.year = some y ∧ isDigitStr y = true
          ∧ n = strToInt y) := by
  refine ⟨⟨?_, ?_⟩, ⟨?_, ?_⟩, ⟨?_, ?_⟩, ?_⟩
  · intro h; simp [build_paper_metadata, h]
  · intro j h; simp [build_paper_metadata, h]
  · intro h; simp [build_paper_metadata, h]
  · intro n h; simp [build_paper_metadata, h]
  · intro h; simp [build_paper_metadata, h]
  · intro u h; simp [build_paper_metadata, h]
  · intro n
    rcases hy : paper_info.year with _ | y
    · simp [build_paper_metadata, hy]
    · by_cases hd : isDigitStr y = true
      · simp only [build_paper_metadata, hy, hd, if_true]
        constructor
        · rintro h
          exact ⟨y, rfl, hd, (Option.some.inj h).symm⟩
        · rintro ⟨y2, hy2, _, hn⟩
          rw [hn, Option.some.inj hy2]
      · have hdf : isDigitStr y = false := by rwa [Bool.not_eq_true] at hd
        simp [build_paper_metadata, hy, hdf]

/-- Witness for C9 at a lookup result with an absent journal and url,
present citations and an all-digit year. -/
theorem c9_normalizer_defaults_witness :
    ((⟨none, some "2020".data, none, none, some 7, none, none⟩ : PaperInfo).journal
        = none
      ∧ (build_paper_metadata ⟨none, some "2020".data, none, none, some 7, none, none⟩
          [] []).journal = [])
    ∧ ((build_paper_metadata ⟨none, some "2020".data, none, none, some 7, none, none⟩
          [] []).citations = 7)
    ∧ ((build_paper_metadata ⟨none, some "2020".data, none, none, some 7, none, none⟩
          [] []).year = some 2020) :=
  ⟨⟨rfl, (c9_normalizer_defaults
      ⟨none, some "2020".data, none, none, some 7, none, none⟩ [] []).1.1 rfl⟩,
    (c9_normalizer_defaults
      ⟨none, some "2020".data, none, none, some 7, none, none⟩ [] []).2.1.2 7 rfl,
    ((c9_normalizer_defaults
      ⟨none, some "2020".data, none, none, some 7, none, none⟩ [] []).2.2.2 2020).mpr
      ⟨"2020".data, rfl, by decide, by decide⟩⟩

/-! The ingestion orchestrator: the per-title loop of process_eml_files and
its final save, from src/scripts/run.py. External collaborators (the
metadata lookup and the operator prompts) appear as oracle functions that
may fail, modelling a raised exception as an error value. -/

/-- Whether suf is a trailing segment of s. -/
def endsWithL (suf s : PyStr) : Bool := startsWithL suf.reverse s.reverse

/-- The text after the first scheme separator. -/
def afterSchemeSep : PyStr → PyStr
  | ':' :: '/' :: '/' :: rest => rest
  | _ :: rest => afterSchemeSep rest
  | [] => []

/-- extract_hostname from src/scripts/run.py: strip the candidate, ensure
a scheme, take the network location up to the first slash, question mark
or hash, drop any user information and port, lowercase, and drop a
leading www dot. -/
def extract_hostname (url : PyStr) : PyStr :=
  if url = [] then []
  else
    let candidate := pyStrip url
    if candidate = [] then []
    else
      let withScheme :=
        if hasSub "://".data candidate then candidate
        else "https://".data ++ candidate
      let netloc := (afterSchemeSep withScheme).takeWhile
        fun c => !(c = '/' || c = '?' || c = '#')
      let hostport := (splitSep '@' netloc).getLastD []
      let host := hostport.takeWhile fun c => !(c = ':')
      let hostname := pyLower (pyStrip host)
      if startsWithL "www.".data hostname then hostname.drop 4 else hostname

example : extract_hostname " https://WWW.Example.org:8080/x?y ".data
    = "example.org".data := by decide
example : extract_hostname "sub.site.net/path".data = "sub.site.net".data := by
  decide

/-- A pattern normalized as matches_avoid_domain does. -/
def normalizePattern (pattern : PyStr) : PyStr :=
  let n := pyLower (pyStrip pattern)
  if startsWithL "www.".data n then n.drop 4 else n

/-- matches_avoid_domain from src/scripts/run.py: the first pattern whose
normalized form equals the hostname or is a dot-suffix of it. -/
def matches_avoid_domain (hostname : PyStr) (patterns : List PyStr) :
    Option PyStr :=
  if hostname = [] ∨ patterns = [] then none
  else patterns.find? fun pattern =>
    !pattern.isEmpty &&
      (let n := normalizePattern pattern
       !n.isEmpty && (hostname == n || endsWithL ('.' :: n) hostname))

example : matches_avoid_domain "a.example.org".data ["www.example.org".data]
    = some "www.example.org".data := by decide
example : matches_avoid_domain "notexample.org".data ["example.org".data]
    = none := by decide

/-- Decimal rendering of a natural number (enough fuel for any value the
scripts meet). -/
def natToStrAux : Nat → Nat → PyStr → PyStr
  | 0, _, acc => acc
  | fuel + 1, n, acc =>
    if n < 10 then digitChar n :: acc
    else natToStrAux fuel (n / 10) (digitChar (n % 10) :: acc)

/-- str() of a natural number. -/
def natToStr (n : Nat) : PyStr := natToStrAux 40 n []

/-- str() of an integer. -/
def intToStr (n : Int) : PyStr :=
  if n < 0 then '-' :: natToStr (-n).toNat else natToStr n.toNat

example : intToStr 2020 = "2020".data := by decide

/-- A record accepted into the batch: the draft dictionary together with
the id and topic keys added to it. -/
structure SelectedPaper where
  draft : PaperDraft
  id : PyStr
  topic : List PyStr
deriving DecidableEq

/-- The in-memory registry state the batch loop mutates. -/
structure BatchState where
  avoid_journals : Finset PyStr
  journal_mapping : List (PyStr × PyStr)
  topics : Finset PyStr
  unique_paper_ids : Finset PyStr
  reviewed_paper_ids : Finset PyStr
  new_reviewed_papers : Finset PyStr
  selected_papers : List SelectedPaper
  non_english_count : Nat
  url_filtered_count : Nat
deriving DecidableEq

/-- The external collaborators consumed inside the loop body, each able to
fail with an error message, modelling a raised exception reaching the loop
body. The prompt oracles stand for the interactive input and keystroke
reads of the source, which have no handler and can raise (for instance an
end-of-file error on a closed terminal). The search oracle stands for
search_paper of the lookup service, which catches ordinary errors
internally and returns a result; its error case models only a failure
escaping that handler. -/
structure OperatorOracles where
  search : PyStr → Except PyStr PaperInfo
  confirm_avoid_journal : PyStr → Except PyStr Bool
  confirm_add : PaperDraft → Except PyStr Bool
  edit_metadata : PaperDraft → Except PyStr PaperDraft
  journal_rename : PyStr → Except PyStr (Option PyStr)
  choose_topic : Finset PyStr → Except PyStr PyStr

/-- The static inputs of one batch run: avoid URL patterns, the date and
year of the run and the run instant. -/
structure BatchEnv where
  avoid_url_patterns : List PyStr
  today : PyStr
  current_year : PyStr
  nowSec : Int

/-- Final acceptance of a record (the tail of the loop body): select a
topic, mark the id reviewed, append the record and register its id. -/
def accept_paper (o : OperatorOracles) (st : BatchState) (pm : PaperDraft)
    (paper_id : PyStr) : Except PyStr BatchState := do
  let topic ← o.choose_topic st.topics
  let pmTopic := if topic ≠ [] then [topic] else []
  let topics2 := if topic ≠ [] then insert topic st.topics else st.topics
  return { st with
    topics := topics2
    reviewed_paper_ids := insert paper_id st.reviewed_paper_ids
    new_reviewed_papers := insert paper_id st.new_reviewed_papers
    selected_papers := st.selected_papers ++ [⟨pm, paper_id, pmTopic⟩]
    unique_paper_ids := insert paper_id st.unique_paper_ids }

/-- Journal normalization step: a mapped journal is rewritten; otherwise
the operator may supply a corrected name, which is recorded in the mapping
and applied. -/
def normalize_journal_step (o : OperatorOracles) (st : BatchState)
    (pm : PaperDraft) (paper_id : PyStr) : Except PyStr BatchState := do
  let journal_lower := pyLower pm.journal
  match lookupMap st.journal_mapping journal_lower with
  | some correct => accept_paper o st { pm with journal := correct } paper_id
  | none => do
    let answer ← o.journal_rename pm.journal
    match answer with
    | some correct =>
      if correct ≠ [] then
        accept_paper o
          { st with journal_mapping :=
              dictInsert st.journal_mapping journal_lower correct }
          { pm with journal := correct } paper_id
      else accept_paper o st pm paper_id
    | none => accept_paper o st pm paper_id

/-- Steps after the operator confirmed the record: manual metadata edit,
required-field validation, authoritative id assignment and duplicate
check, late avoid-journal check, then journal normalization. -/
def confirmed_paper_steps (o : OperatorOracles) (st : BatchState)
    (pm : PaperDraft) : Except PyStr BatchState := do
  let pm2 ← o.edit_metadata pm
  if pm2.title ≠ [] ∧ pm2.year.getD 0 ≠ 0
      ∧ pm2.journal ≠ [] ∧ pm2.abstract ≠ [] then
    match pm2.year with
    | none => return st
    | some y =>
      let paper_id := generate_paper_id pm2.title (intToStr y)
      if paper_id ∈ st.unique_paper_ids then return st
      else if pyLower pm2.journal ∈ st.avoid_journals then return st
      else normalize_journal_step o st pm2 paper_id
  else return st

/-- The middle of the loop body: offer adding a new journal to the avoid
list, then ask whether to add the paper, marking a rejection as reviewed
under the scraped year or the current year. -/
def offer_and_confirm (o : OperatorOracles) (env : BatchEnv) (st : BatchState)
    (pm : PaperDraft) : Except PyStr BatchState := do
  if pm.journal ≠ [] ∧ pyLower pm.journal ∉ st.avoid_journals
      ∧ pyLower pm.journal ∉ st.journal_mapping.map Prod.fst then do
    let add_to_avoid ← o.confirm_avoid_journal pm.journal
    if add_to_avoid then
      return { st with avoid_journals := insert (pyLower pm.journal) st.avoid_journals }
    else offer_add_paper o env st pm
  else offer_add_paper o env st pm
where
  offer_add_paper (o : OperatorOracles) (env : BatchEnv) (st : BatchState)
      (pm : PaperDraft) : Except PyStr BatchState := do
    let add_paper ← o.confirm_add pm
    if add_paper then confirmed_paper_steps o st pm
    else
      if pm.title ≠ [] then
        let fallback_year := match pm.year with
          | some y => if y ≠ 0 then intToStr y else env.current_year
          | none => env.current_year
        let rejected := generate_paper_id pm.title fallback_year
        return { st with
          reviewed_paper_ids := insert rejected st.reviewed_paper_ids
          new_reviewed_papers := insert rejected st.new_reviewed_papers }
      else return st

/-- One iteration of the batch loop for one title: look the title up,
build the draft, run the avoid-domain, non-English, reviewed and known-id
checks, the early avoid-journal check, then the interactive steps. Any
error from a collaborator aborts the whole computation, as the loop body
has no exception handler. -/
def process_one (o : OperatorOracles) (env : BatchEnv) (st : BatchState)
    (title : PyStr) : Except PyStr BatchState := do
  let paper_info ← o.search title
  let pm := build_paper_metadata paper_info title env.today
  match matches_avoid_domain (extract_hostname pm.url) env.avoid_url_patterns with
  | some _ => return { st with url_filtered_count := st.url_filtered_count + 1 }
  | none =>
  if pm.title ≠ [] ∧ contains_non_english_chars pm.title then
    return { st with non_english_count := st.non_english_count + 1 }
  else
    match pm.year with
    | some y =>
      if pm.title ≠ [] ∧ y ≠ 0 then
        let paper_id := generate_paper_id pm.title (intToStr y)
        if paper_id ∈ st.reviewed_paper_ids then return st
        else if paper_id ∈ st.unique_paper_ids then return st
        else early_journal_check o env st pm
      else early_journal_check o env st pm
    | none => early_journal_check o env st pm
where
  early_journal_check (o : OperatorOracles) (env : BatchEnv) (st : BatchState)
      (pm : PaperDraft) : Except PyStr BatchState :=
    if pm.journal ≠ [] ∧ pyLower pm.journal ∈ st.avoid_journals then pure st
    else offer_and_confirm o env st pm

/-- The whole batch loop over the filtered titles. -/
def run_batch_loop (o : OperatorOracles) (env : BatchEnv) (titles : List PyStr)
    (st0 : BatchState) : Except PyStr BatchState :=
  titles.foldlM (process_one o env) st0

/-- Everything the final save step writes: the year document (appended to
its existing papers, only when some paper was selected), the four registry
tables, and the reviewed log (only when the session reviewed something).
The compressed bundle is a transcription of the year document. -/
structure SaveBundle where
  year_papers : Option (List SelectedPaper)
  avoid_csv : CsvSetFile
  paper_id_csv : CsvSetFile
  journal_csv : CsvMapFile
  topic_csv : CsvSetFile
  reviewed_log : Option (List ReviewedRow)
deriving DecidableEq

/-- The final save of process_eml_files over the loop-final state. -/
def final_save (env : BatchEnv) (existing_year_papers : List SelectedPaper)
    (reviewed_file_rows : List ReviewedRow) (st : BatchState) : SaveBundle :=
  { year_papers :=
      if st.selected_papers ≠ [] then
        some (existing_year_papers ++ st.selected_papers)
      else none
  , avoid_csv := save_set_to_csv st.avoid_journals "name".data
  , paper_id_csv := save_set_to_csv st.unique_paper_ids "id".data
  , journal_csv := save_journal_mapping st.journal_mapping
  , topic_csv := save_set_to_csv st.topics "name".data
  , reviewed_log :=
      if st.new_reviewed_papers ≠ ∅ then
        some (save_reviewed_papers (st.new_reviewed_papers.sort (· ≤ ·))
          reviewed_file_rows env.nowSec)
      else none }

/-- process_eml_files after early filtering: run the loop over every
title, then perform the final save once. -/
def process_batch (o : OperatorOracles) (env : BatchEnv)
    (existing_year_papers : List SelectedPaper)
    (reviewed_file_rows : List ReviewedRow) (titles : List PyStr)
    (st0 : BatchState) : Except PyStr SaveBundle := do
  let stF ← run_batch_loop o env titles st0
  return final_save env existing_year_papers reviewed_file_rows stF

deriving instance DecidableEq for Except

/-- Oracles for a concrete two-title batch: the lookup always returns a
result (as search_paper does, its body being wrapped in a catch-all); the
operator declines the first record, and the add-paper prompt raises an
end-of-file error while the second record is on screen. -/
def oC2 : OperatorOracles :=
  { search := fun t =>
      Except.ok ⟨some t, some "2020".data, some [], some "JX".data,
        some 3, some "An abstract".data, some []⟩
  , confirm_avoid_journal := fun _ => Except.ok false
  , confirm_add := fun pm =>
      if pm.title = "t2".data then Except.error "EOFError".data
      else Except.ok false
  , edit_metadata := fun pm => Except.ok pm
  , journal_rename := fun _ => Except.ok none
  , choose_topic := fun _ => Except.ok "hydro".data }

/-- Environment of the concrete batch: no avoid URL patterns, run on
2026-10-12. -/
def envC2 : BatchEnv := ⟨[], "2026-10-12".data, "2026".data, (739901 : Int) * 86400⟩

/-- Empty starting registries. -/
def st0C2 : BatchState := ⟨∅, [], ∅, ∅, ∅, ∅, [], 0, 0⟩

/-- The loop state after the first title: its id is marked reviewed both
in memory and in the session set (accumulated progress). -/
def st1C2 : BatchState :=
  { st0C2 with
    reviewed_paper_ids := {generate_paper_id "t1".data "2020".data}
    new_reviewed_papers := {generate_paper_id "t1".data "2020".data} }

set_option maxRecDepth 4000 in
example : run_batch_loop oC2 envC2 ["t1".data] st0C2 = Except.ok st1C2 := by
  decide

set_option maxRecDepth 4000 in
/-- Counterexample to C2 as stated: in a two-title batch whose first title
is processed to completion (progress: its id sits in the session reviewed
set), an end-of-file error raised at the add-paper prompt of the second
title — an input read the loop body does not guard — propagates out of the
loop and the batch yields no save bundle at all, instead of executing the
final save with the accumulated records. -/
theorem c2_batch_counterexample :
    run_batch_loop oC2 envC2 ["t1".data] st0C2 = Except.ok st1C2
    ∧ st1C2.new_reviewed_papers ≠ ∅
    ∧ process_one oC2 envC2 st1C2 "t2".data = Except.error "EOFError".data
    ∧ process_batch oC2 envC2 [] [] ["t1".data, "t2".data] st0C2
        = Except.error "EOFError".data := by
  refine ⟨by decide, by decide, by decide, by decide⟩

/-- C2 as amended: when the loop reaches a title whose processing raises
an error, the error propagates out of the loop and out of
process_eml_files: the batch result is that error and the final save step
never runs, whatever was accumulated before; the final save executes
exactly for the batches whose loop completes without error, once, over the
final loop state. -/
theorem c2_error_propagation_amended (o : OperatorOracles) (env : BatchEnv)
    (existing_year_papers : List SelectedPaper)
    (reviewed_file_rows : List ReviewedRow) (pre suf : List PyStr) (t : PyStr)
    (st0 st1 : BatchState) (e : PyStr)
    (hpre : run_batch_loop o env pre st0 = Except.ok st1)
    (herr : process_one o env st1 t = Except.error e) :
    run_batch_loop o env (pre ++ t :: suf) st0 = Except.error e
    ∧ process_batch o env existing_year_papers reviewed_file_rows
        (pre ++ t :: suf) st0 = Except.error e
    ∧ ∀ (titles2 : List PyStr) (stF : BatchState),
        run_batch_loop o env titles2 st0 = Except.ok stF →
        process_batch o env existing_year_papers reviewed_file_rows titles2 st0
          = Except.ok (final_save env existing_year_papers reviewed_file_rows stF) := by
  have hloop : run_batch_loop o env (pre ++ t :: suf) st0 = Except.error e := by
    rw [run_batch_loop, List.foldlM_append]
    rw [run_batch_loop] at hpre
    rw [hpre]
    show process_one o env st1 t >>=
      (fun s => List.foldlM (process_one o env) s suf) = Except.error e
    rw [herr]
    rfl
  refine ⟨hloop, ?_, ?_⟩
  · rw [process_batch, hloop]
    rfl
  · intro titles2 stF hok
    rw [process_batch, hok]
    rfl

set_option maxRecDepth 4000 in
/-- Witness for the amended C2 at the concrete two-title batch whose
second add-paper prompt raises. -/
theorem c2_error_propagation_amended_witness :
    run_batch_loop oC2 envC2 ["t1".data] st0C2 = Except.ok st1C2
    ∧ process_one oC2 envC2 st1C2 "t2".data = Except.error "EOFError".data
    ∧ (run_batch_loop oC2 envC2 (["t1".data] ++ "t2".data :: []) st0C2
          = Except.error "EOFError".data
      ∧ process_batch oC2 envC2 [] [] (["t1".data] ++ "t2".data :: []) st0C2
          = Except.error "EOFError".data
      ∧ ∀ (titles2 : List PyStr) (stF : BatchState),
          run_batch_loop oC2 envC2 titles2 st0C2 = Except.ok stF →
          process_batch oC2 envC2 [] [] titles2 st0C2
            = Except.ok (final_save envC2 [] [] stF)) :=
  ⟨by decide, by decide,
    c2_error_propagation_amended oC2 envC2 [] [] ["t1".data] [] "t2".data
      st0C2 st1C2 "EOFError".data (by decide) (by decide)⟩
